import Mathlib

/-!
Verification of the STTPrepConverter media-conversion microservice.

Shallow embedding of the parts of the code base that the specification's
claims are about:

* `app/services/redis_client.py` — job-record CRUD on Redis hashes
  (`create_job`, `update_job_status`), modelled per key as a field map
  plus an optional TTL.
* `app/utils/security.py` — `is_safe_url` SSRF validation, with URL
  parsing and DNS resolution abstracted as an environment of functions.
* `app/utils/retry.py` — `retry_with_backoff`, modelled on a stream of
  per-attempt outcomes with an abstract jitter function standing for
  `random.uniform(0, 1)` (which computes `0 + 1 * random()`, a value in
  `[0, 1)`).
* `app/services/uploader.py` — `upload_output_wav` and `fire_webhook`,
  modelled by the lists of HTTP requests they issue.
* `app/worker/tasks.py` — the `convert_video` exception dispatch, the
  `finish_job` terminal write + webhook sequence, and the
  `cleanup_orphaned_files` periodic reaper.
* `app/api/routes.py` — the ingress streaming loop of
  `create_job_endpoint` with its payload-too-large abort.
-/

namespace STTPrep

/-! ## Redis hash model

A Redis hash is modelled as a partial map from field names to string
values; a key's state is the optional hash (absent key = `none`)
together with the optional TTL set by `EXPIRE`.  `HSET` with a mapping
writes the fields left to right; `EXPIRE` on a missing key is a no-op
(it returns 0 and sets nothing). -/

/-- A Redis hash: field name to optional string value. -/
def Hash : Type := String → Option String

/-- The empty hash (no fields). -/
def Hash.empty : Hash := fun _ => none

/-- `HSET` of a single field. -/
def hset1 (h : Hash) (f v : String) : Hash :=
  fun g => if g = f then some v else h g

/-- `HSET key mapping=...`: write the pairs left to right. -/
def hsetM (h : Hash) : List (String × String) → Hash
  | [] => h
  | (f, v) :: rest => hsetM (hset1 h f v) rest

/-- State of one Redis key: the hash (if the key exists) and its TTL. -/
structure KeyState where
  hash : Option Hash
  ttl : Option Nat

/-- A key that does not exist in the store. -/
def KeyState.empty : KeyState := ⟨none, none⟩

/-- `HGET`: `none` when the key or the field is missing. -/
def khget (ks : KeyState) (f : String) : Option String :=
  match ks.hash with
  | none => none
  | some h => h f

/-- `HSET` with a mapping: creates the key when absent, keeps the TTL. -/
def khsetM (ks : KeyState) (m : List (String × String)) : KeyState :=
  { hash := some (hsetM (ks.hash.getD Hash.empty) m), ttl := ks.ttl }

/-- `EXPIRE key secs`: no-op when the key does not exist. -/
def kexpire (ks : KeyState) (secs : Nat) : KeyState :=
  match ks.hash with
  | none => ks
  | some _ => { ks with ttl := some secs }

/-- The last value written for field `g` by a mapping (later entries
overwrite earlier ones). -/
def lookupLastKey : List (String × String) → String → Option String
  | [], _ => none
  | (f, v) :: rest, g =>
    match lookupLastKey rest g with
    | some w => some w
    | none => if g = f then some v else none

/-! ### Hash evaluation lemmas -/

theorem khsetM_cons (ks : KeyState) (f v : String)
    (rest : List (String × String)) :
    khsetM ks ((f, v) :: rest) = khsetM (khsetM ks [(f, v)]) rest := by
  simp [khsetM, hsetM]

theorem khget_khsetM_single (ks : KeyState) (f v g : String) :
    khget (khsetM ks [(f, v)]) g = if g = f then some v else khget ks g := by
  show hsetM (ks.hash.getD Hash.empty) [(f, v)] g = _
  by_cases hg : g = f
  · simp [hsetM, hset1, hg]
  · cases hks : ks.hash <;> simp [hsetM, hset1, hg, khget, hks, Hash.empty]

/-- Last write wins: evaluating a key state after a mapping `HSET`. -/
theorem khget_khsetM (m : List (String × String)) (ks : KeyState)
    (g : String) :
    khget (khsetM ks m) g =
      match lookupLastKey m g with
      | some w => some w
      | none => khget ks g := by
  induction m generalizing ks with
  | nil =>
    show hsetM (ks.hash.getD Hash.empty) [] g = _
    cases hks : ks.hash <;> simp [hsetM, lookupLastKey, khget, hks, Hash.empty]
  | cons p rest ih =>
    obtain ⟨f, v⟩ := p
    rw [khsetM_cons, ih, lookupLastKey]
    cases hrest : lookupLastKey rest g
    · by_cases hg : g = f <;> simp [khget_khsetM_single, hg]
    · rfl

theorem khsetM_ttl (ks : KeyState) (m : List (String × String)) :
    (khsetM ks m).ttl = ks.ttl := rfl

theorem kexpire_ttl_of_some (ks : KeyState) (secs : Nat)
    (h : ks.hash.isSome = true) : (kexpire ks secs).ttl = some secs := by
  cases hks : ks.hash
  · rw [hks] at h; cases h
  · simp [kexpire, hks]

/-! ## `redis_client.create_job` and `redis_client.update_job_status` -/

/-- Python truthiness test used by `update_job_status` on the value of
`await client.hget(job_key, "started_at")`: `None` and `""` are falsy. -/
def pyFalsy : Option String → Bool
  | none => true
  | some s => s = ""

/-- The field mapping written by `create_job` (redis_client.py lines
36-45): a full job record with status `queued`. -/
def jobRecordFields (now input_path : String) : List (String × String) :=
  [("status", "queued"), ("created_at", now), ("started_at", ""),
   ("completed_at", ""), ("error", ""), ("input_path", input_path)]

/-- `create_job(job_id, input_path)` on the state of key `job:{job_id}`:
a plain `HSET` of the whole mapping (redis_client.py line 46).  `now` is
the `datetime.utcnow().isoformat() + "Z"` timestamp taken at the call. -/
def create_job (now input_path : String) (ks : KeyState) : KeyState :=
  khsetM ks (jobRecordFields now input_path)

/-- `update_job_status(job_id, status, error)` on the state of key
`job:{job_id}` (redis_client.py lines 48-63): writes `status`; adds
`started_at` when the new status is `processing` and the stored
`started_at` is falsy; on a terminal status adds `completed_at`, adds
`error` when the argument is truthy, and calls `EXPIRE` (7 days) before
the final `HSET`. -/
def update_job_status (now status : String) (error : Option String)
    (ks : KeyState) : KeyState :=
  let updates1 : List (String × String) :=
    if status = "processing" ∧ pyFalsy (khget ks "started_at") then
      [("status", status), ("started_at", now)]
    else
      [("status", status)]
  if status = "completed" ∨ status = "failed" then
    let errPart : List (String × String) :=
      match error with
      | some e => if e = "" then [] else [("error", e)]
      | none => []
    khsetM (kexpire ks 604800) (updates1 ++ [("completed_at", now)] ++ errPart)
  else
    khsetM ks updates1

theorem kexpire_khget (ks : KeyState) (secs : Nat) (g : String) :
    khget (kexpire ks secs) g = khget ks g := by
  cases hks : ks.hash <;> simp [kexpire, khget, hks]

/-- The status field is always written by `update_job_status`. -/
theorem update_job_status_sets_status (now status : String)
    (error : Option String) (ks : KeyState) :
    khget (update_job_status now status error ks) "status" = some status := by
  simp only [update_job_status]
  by_cases h1 : status = "processing" ∧ pyFalsy (khget ks "started_at") <;>
  by_cases h2 : status = "completed" ∨ status = "failed" <;>
  rcases error with _ | e <;>
  simp only [h1, h2, if_pos, if_neg, if_true, if_false, ite_true, ite_false,
    not_false_iff, khget_khsetM] <;>
  first
  | (by_cases he : e = "" <;> simp [he, khget_khsetM, lookupLastKey])
  | simp [khget_khsetM, lookupLastKey]

/-! ## `security.is_safe_url`

URL parsing (`urllib.parse.urlparse`) and DNS resolution
(`socket.gethostbyname` composed with `ipaddress.ip_address`) are
abstracted as an environment of partial functions; `none` models the
raised exception, which `is_safe_url` catches and turns into `False`. -/

/-- The configuration flags read by `is_safe_url` (config.py). -/
structure SecSettings where
  ALLOW_PRIVATE_IPS : Bool
  ALLOW_HTTP_CALLBACKS : Bool

/-- The pieces of `urlparse` output that `is_safe_url` inspects. -/
structure ParsedUrl where
  scheme : String
  hostname : Option String

/-- The address-class flags of the resolved IP that `is_safe_url`
inspects. -/
structure IPProps where
  is_private : Bool
  is_loopback : Bool
  is_link_local : Bool

/-- The ambient network: URL parsing and name resolution.  `parse url =
none` models `urlparse` raising; `resolve host = none` models
`socket.gethostbyname` or `ipaddress.ip_address` raising. -/
structure NetEnv where
  parse : String → Option ParsedUrl
  resolve : String → Option IPProps

/-- `security.is_safe_url(url)` (security.py lines 7-40).  The bypass
flag returns `True` before any parsing; afterwards: scheme must be
http/https, plain http needs `ALLOW_HTTP_CALLBACKS`, the hostname must
be truthy, and the resolved address must not be private, loopback or
link-local.  Any exception yields `False`. -/
def is_safe_url (st : SecSettings) (env : NetEnv) (url : String) : Bool :=
  if st.ALLOW_PRIVATE_IPS then true
  else
    match env.parse url with
    | none => false
    | some p =>
      if p.scheme ≠ "http" ∧ p.scheme ≠ "https" then false
      else if st.ALLOW_HTTP_CALLBACKS = false ∧ p.scheme = "http" then false
      else
        match p.hostname with
        | none => false
        | some host =>
          if host = "" then false
          else
            match env.resolve host with
            | none => false
            | some ip =>
              if ip.is_private ∨ ip.is_loopback ∨ ip.is_link_local then false
              else true

theorem is_safe_url_of_parse_none (st : SecSettings) (env : NetEnv)
    (url : String) (hpriv : st.ALLOW_PRIVATE_IPS = false)
    (hp : env.parse url = none) : is_safe_url st env url = false := by
  simp [is_safe_url, hpriv, hp]

theorem is_safe_url_of_resolve_none (st : SecSettings) (env : NetEnv)
    (url : String) (p : ParsedUrl) (host : String)
    (hpriv : st.ALLOW_PRIVATE_IPS = false)
    (hp : env.parse url = some p) (hh : p.hostname = some host)
    (hr : env.resolve host = none) : is_safe_url st env url = false := by
  simp only [is_safe_url, hpriv, hp, hh, hr, if_false, ite_false,
    Bool.false_eq_true]
  by_cases h1 : p.scheme ≠ "http" ∧ p.scheme ≠ "https" <;>
    by_cases h2 : st.ALLOW_HTTP_CALLBACKS = false ∧ p.scheme = "http" <;>
      by_cases h3 : host = "" <;> simp [h1, h2, h3]

/-- If the check passes with the bypass off, the resolved address class
of the URL's host is public: not private, loopback or link-local. -/
theorem is_safe_url_resolved_public (st : SecSettings) (env : NetEnv)
    (url : String) (p : ParsedUrl) (host : String) (ip : IPProps)
    (hpriv : st.ALLOW_PRIVATE_IPS = false)
    (hsafe : is_safe_url st env url = true)
    (hp : env.parse url = some p) (hh : p.hostname = some host)
    (hr : env.resolve host = some ip) :
    ip.is_private = false ∧ ip.is_loopback = false ∧
      ip.is_link_local = false := by
  simp only [is_safe_url, hpriv, hp, hh, hr, if_false, ite_false] at hsafe
  by_cases h1 : p.scheme ≠ "http" ∧ p.scheme ≠ "https" <;>
    by_cases h2 : st.ALLOW_HTTP_CALLBACKS = false ∧ p.scheme = "http" <;>
      by_cases h3 : host = "" <;> simp [h1, h2, h3] at hsafe
  all_goals
    by_cases q1 : ip.is_private <;> by_cases q2 : ip.is_loopback <;>
      by_cases q3 : ip.is_link_local <;> simp_all

/-! ## `retry.retry_with_backoff`

The async function under retry is modelled as a stream of per-attempt
outcomes (`outcomes k` is what the k-th call returns or raises); the
jitter stream models `random.uniform(0, 1)`.  The model returns the
final result (`none` when `max_retries = 0` and the Python loop body
never runs), the number of calls made, and the list of back-off delays
slept between attempts. -/

/-- Result of a `retry_with_backoff` run. -/
structure RetryResult (α : Type) where
  result : Option (Except String α)
  calls : Nat
  delays : List ℚ

/-- One pass of the `for attempt in range(max_retries)` loop of
retry.py, from loop index `attempt` with `fuel` iterations left.  On
failure at the last index the exception is re-raised; otherwise
`delay = base_delay * 2 ** attempt + jitter attempt` is slept and the
loop continues. -/
def retryGo (outcomes : Nat → Except String α) (base : ℚ)
    (jitter : Nat → ℚ) (maxRetries : Nat) : Nat → Nat → RetryResult α
  | _, 0 => ⟨none, 0, []⟩
  | attempt, fuel + 1 =>
    match outcomes attempt with
    | .ok a => ⟨some (.ok a), 1, []⟩
    | .error e =>
      if attempt = maxRetries - 1 then ⟨some (.error e), 1, []⟩
      else
        let r := retryGo outcomes base jitter maxRetries (attempt + 1) fuel
        ⟨r.result, r.calls + 1, (base * 2 ^ attempt + jitter attempt) :: r.delays⟩

/-- `retry_with_backoff(func, max_retries, base_delay, ...)`
(retry.py lines 6-34). -/
def retry_with_backoff (outcomes : Nat → Except String α) (base : ℚ)
    (jitter : Nat → ℚ) (maxRetries : Nat) : RetryResult α :=
  retryGo outcomes base jitter maxRetries 0 maxRetries

/-- The retried function is called at most once per loop iteration. -/
theorem retryGo_calls_le (outcomes : Nat → Except String α) (base : ℚ)
    (jitter : Nat → ℚ) (maxRetries : Nat) :
    ∀ fuel attempt,
      (retryGo outcomes base jitter maxRetries attempt fuel).calls ≤ fuel := by
  intro fuel
  induction fuel with
  | zero => intro attempt; simp [retryGo]
  | succ n ih =>
    intro attempt
    rw [retryGo]
    cases outcomes attempt with
    | ok a => simp
    | error e =>
      by_cases h : attempt = maxRetries - 1 <;> simp [h]
      exact ih (attempt + 1)

/-- The k-th recorded delay is exactly `base * 2 ^ (attempt + k) +
jitter (attempt + k)`. -/
theorem retryGo_delays (outcomes : Nat → Except String α) (base : ℚ)
    (jitter : Nat → ℚ) (maxRetries : Nat) :
    ∀ fuel attempt i d,
      (retryGo outcomes base jitter maxRetries attempt fuel).delays.get? i =
        some d →
      d = base * 2 ^ (attempt + i) + jitter (attempt + i) := by
  intro fuel
  induction fuel with
  | zero => intro attempt i d hd; simp [retryGo] at hd
  | succ n ih =>
    intro attempt i d hd
    simp only [retryGo] at hd
    cases houtcome : outcomes attempt with
    | ok a => simp [houtcome] at hd
    | error e =>
      simp only [houtcome] at hd
      by_cases h : attempt = maxRetries - 1
      · simp [h] at hd
      · simp only [h, if_false, ite_false] at hd
        cases i with
        | zero => simp_all
        | succ j =>
          simp only [List.get?_cons_succ] at hd
          have harg : attempt + 1 + j = attempt + (j + 1) := by omega
          have := ih (attempt + 1) j d hd
          rw [harg] at this
          exact this

/-- When every attempt fails, the loop re-raises the exception of the
last attempt, index `maxRetries - 1`. -/
theorem retryGo_exhaust (outcomes : Nat → Except String α) (base : ℚ)
    (jitter : Nat → ℚ) (maxRetries : Nat) (errs : Nat → String)
    (hfail : ∀ k, k < maxRetries → outcomes k = .error (errs k)) :
    ∀ fuel attempt, attempt + fuel = maxRetries → 0 < fuel →
      (retryGo outcomes base jitter maxRetries attempt fuel).result =
        some (.error (errs (maxRetries - 1))) := by
  intro fuel
  induction fuel with
  | zero => intro attempt _ h; cases h
  | succ n ih =>
    intro attempt hsum _
    rw [retryGo, hfail attempt (by omega)]
    by_cases h : attempt = maxRetries - 1
    · simp only [h, if_pos, ite_true]
    · have hn : 0 < n := by omega
      simp only [h, if_false, ite_false]
      exact ih (attempt + 1) (by omega) hn

/-! ## Configuration defaults (config.py) -/

/-- `Settings.UPLOAD_MAX_RETRIES` default. -/
def UPLOAD_MAX_RETRIES : Nat := 3

/-- `Settings.WEBHOOK_MAX_RETRIES` default. -/
def WEBHOOK_MAX_RETRIES : Nat := 5

/-- `Settings.UPLOAD_RETRY_BACKOFF_BASE` default. -/
def UPLOAD_RETRY_BACKOFF_BASE : ℚ := 2

/-- `Settings.WEBHOOK_RETRY_BACKOFF_BASE` default. -/
def WEBHOOK_RETRY_BACKOFF_BASE : ℚ := 2

/-- `Settings.MAX_UPLOAD_SIZE_MB` default. -/
def MAX_UPLOAD_SIZE_MB : Nat := 4096

/-- `Settings.TEMP_FILE_TTL_SECONDS` default. -/
def TEMP_FILE_TTL_SECONDS : ℚ := 3600

/-! ## `uploader.upload_output_wav` and `uploader.fire_webhook`

The outbound client is modelled by the list of HTTP requests a call
issues: one request per invocation of the retried inner closure.  The
number of invocations comes from `retry_with_backoff` applied to a
stream of per-attempt HTTP outcomes. -/

/-- An outbound HTTP request (method and target URL). -/
structure HttpRequest where
  method : String
  url : String

/-- The URL rewriting at the top of `upload_output_wav` (uploader.py
lines 22-28): append the artifact filename unless already present,
inserting a slash if needed. -/
def upload_url (output_url filename : String) : String :=
  if output_url.endsWith filename then output_url
  else if output_url.endsWith "/" then output_url ++ filename
  else output_url ++ "/" ++ filename

/-- `upload_output_wav` (uploader.py lines 11-66): rewrites the URL,
rejects it with a `ValueError` when `is_safe_url` fails, otherwise PUTs
to it under `retry_with_backoff`; on retry exhaustion the last
exception propagates.  Returns the requests issued and the overall
outcome. -/
def upload_output_wav (st : SecSettings) (env : NetEnv)
    (filename output_url : String) (base : ℚ) (jitter : Nat → ℚ)
    (maxRetries : Nat) (outcomes : Nat → Except String Unit) :
    List HttpRequest × Except String Unit :=
  let u := upload_url output_url filename
  if is_safe_url st env u then
    let r := retry_with_backoff outcomes base jitter maxRetries
    (List.replicate r.calls ⟨"PUT", u⟩,
     match r.result with
     | some (.error e) => .error e
     | _ => .ok ())
  else
    ([], .error ("Insecure output URL: " ++ u))

/-- `fire_webhook` (uploader.py lines 68-110): returns without sending
when `is_safe_url` fails; otherwise POSTs under `retry_with_backoff`
and swallows any final exception (the `try/except` around the retry),
so the call always returns normally — its codomain has no error
component. -/
def fire_webhook (st : SecSettings) (env : NetEnv) (callback_url : String)
    (base : ℚ) (jitter : Nat → ℚ) (maxRetries : Nat)
    (outcomes : Nat → Except String Unit) : List HttpRequest :=
  if is_safe_url st env callback_url then
    List.replicate (retry_with_backoff outcomes base jitter maxRetries).calls
      ⟨"POST", callback_url⟩
  else []

/-! ## `tasks.finish_job` -/

/-- Externally visible effects of `finish_job`, in order. -/
inductive TraceEvent
  | storeWrite (status : String)
  | webhookPost (url : String)

/-- `finish_job(job_id, status, error, callback_url, ...)` (tasks.py
lines 97-101): awaits `update_job_status`, then fires the webhook when
a callback URL is configured.  Returns the final key state and the
ordered effect trace. -/
def finish_job (st : SecSettings) (env : NetEnv) (now status : String)
    (error : Option String) (callback_url : Option String) (base : ℚ)
    (jitter : Nat → ℚ) (maxRetries : Nat)
    (outcomes : Nat → Except String Unit) (ks : KeyState) :
    KeyState × List TraceEvent :=
  (update_job_status now status error ks,
   .storeWrite status ::
     (match callback_url with
      | none => []
      | some url =>
        (fire_webhook st env url base jitter maxRetries outcomes).map
          fun r => .webhookPost r.url))

/-! ## `tasks.convert_video` exception dispatch

The `try/except` ladder of `convert_video` (tasks.py lines 76-95),
applied to the exception raised by a stage.  `ffmpegError` stands for
an `FFmpegError` that is not a `NoAudioTrackError` (the narrower
`except` clause comes first); it covers both `ffprobe` failures raised
by `validate_audio_track` and `ffmpeg` failures raised by
`ffmpeg.convert_video`. -/

/-- Exception raised by a stage of the pipeline. -/
inductive TaskExc
  | noAudioTrack (msg : String)
  | ffmpegError (msg : String)
  | softTimeLimitExceeded
  | unexpected (msg : String)
deriving DecidableEq

/-- What the task does with the exception. -/
inductive TaskAction
  | finishFailed (error : String)
  | retryTask (delay : Nat)
deriving DecidableEq

/-- `max_retries=3` from the `@celery_app.task` decorator. -/
def convert_video_max_retries : Nat := 3

/-- `default_retry_delay=30` from the `@celery_app.task` decorator. -/
def convert_video_default_retry_delay : Nat := 30

/-- The exception dispatch of `convert_video`, given the number of
retries already performed (`self.request.retries`). -/
def convert_video_on_exc (retries : Nat) (e : TaskExc) : TaskAction :=
  match e with
  | .noAudioTrack msg => .finishFailed msg
  | .ffmpegError msg =>
    if retries < convert_video_max_retries then
      .retryTask convert_video_default_retry_delay
    else
      .finishFailed ("FFmpeg failed after retries: " ++ msg)
  | .softTimeLimitExceeded => .finishFailed "Task timeout (SoftTimeLimitExceeded)"
  | .unexpected msg => .finishFailed ("Unexpected error: " ++ msg)

/-! ## Ingress streaming loop (`routes.create_job_endpoint`)

The upload stream is read in `await file.read(1024 * 1024)` pieces, so
a file of `n` bytes arrives as chunks of `min (1024 * 1024)` of the
remainder.  The running total is checked against the ceiling before
each write; exceeding it closes the file, purges the job directory and
raises the 413 `HTTPException`, which the endpoint re-raises before any
store write. -/

/-- Observable steps of one `create_job_endpoint` call. -/
inductive IngEvent
  | createDir
  | writeChunk (n : Nat)
  | purgeDir
  | storeCreateJob
  | enqueueTask
  | respond (code : Nat)
deriving DecidableEq

/-- The chunk sizes produced by reading an `n`-byte stream in 1 MiB
reads. -/
def readChunks : Nat → List Nat
  | 0 => []
  | n + 1 =>
    min 1048576 (n + 1) :: readChunks ((n + 1) - min 1048576 (n + 1))
termination_by n => n
decreasing_by simp_wf

/-- The `while chunk := await file.read(...)` loop (routes.py lines
57-63): per chunk, add its length to the running total; if the total
exceeds `max_bytes`, purge the directory and respond 413; otherwise
write the chunk.  Returns the emitted events and whether streaming
completed. -/
def streamLoop (maxBytes : Nat) : List Nat → Nat → List IngEvent × Bool
  | [], _ => ([], true)
  | c :: cs, total =>
    if total + c > maxBytes then ([.purgeDir, .respond 413], false)
    else
      let r := streamLoop maxBytes cs (total + c)
      (.writeChunk c :: r.1, r.2)

/-- Result of one `create_job_endpoint` call. -/
structure IngressOutcome where
  events : List IngEvent
  store : KeyState
  dirExists : Bool
  code : Nat

/-- `create_job_endpoint` (routes.py lines 15-92) for a fixed job id,
with the state of that job's Redis key as `ks` and the upload stream
given by its byte size.  `diskOk` is the admission-control verdict of
`storage.check_disk_space`. -/
def create_job_endpoint_run (diskOk : Bool) (maxUploadMB : Nat)
    (fileSize : Nat) (now input_path : String) (ks : KeyState) :
    IngressOutcome :=
  if diskOk = false then ⟨[.respond 503], ks, false, 503⟩
  else
    match ks.hash with
    | some _ => ⟨[.respond 202], ks, false, 202⟩
    | none =>
      let maxBytes := maxUploadMB * 1024 * 1024
      let r := streamLoop maxBytes (readChunks fileSize) 0
      if r.2 then
        ⟨.createDir :: r.1 ++ [.storeCreateJob, .enqueueTask, .respond 202],
         create_job now input_path ks, true, 202⟩
      else
        ⟨.createDir :: r.1, ks, false, 413⟩

/-! ## Periodic reaper (`tasks.cleanup_orphaned_files`) -/

/-- A directory entry of the temp root as the reaper sees it. -/
structure DirEntry where
  name : String
  mtime : ℚ
  isDir : Bool
deriving DecidableEq

/-- The per-directory removal test of `cleanup_orphaned_files`
(tasks.py lines 115-130): skip non-directories; remove when the age
exceeds the TTL and the job record is absent (or empty) or its status
is terminal. -/
def reaperRemoves (now ttl : ℚ) (jobs : String → Option Hash)
    (d : DirEntry) : Bool :=
  d.isDir && decide (now - d.mtime > ttl) &&
    (match jobs d.name with
     | none => true
     | some h =>
       match h "status" with
       | some s => s = "completed" || s = "failed"
       | none => false)

/-- `cleanup_orphaned_files`: the set of directories removed in one
sweep over `entries`. -/
def cleanup_orphaned_files (now ttl : ℚ) (jobs : String → Option Hash)
    (entries : List DirEntry) : List DirEntry :=
  entries.filter (reaperRemoves now ttl jobs)

/-- The beat schedule period of the cleanup task (tasks.py lines
133-136): `"schedule": 1800.0`. -/
def cleanup_beat_schedule_seconds : ℚ := 1800

/-! ## Status traces of `convert_video` (tasks.py lines 31-95)

One delivery of the task writes `processing` first; a retryable
`FFmpegError` with retries left re-raises via `self.retry` and a later
delivery starts over; otherwise the run continues to `uploading` and a
terminal status.  The whole job's status history is the `queued`
written by `create_job` followed by the writes of all deliveries. -/

/-- Outcome of one delivery of `convert_video`. -/
inductive RunOutcome
  /-- validate, transcode, rename, upload and finish all succeed. -/
  | success
  /-- an exception after the `uploading` write (rename, upload or an
  unexpected error): caught by a non-retrying clause. -/
  | failAfterUploading
  /-- a non-retryable exception before the `uploading` write: missing
  input, `NoAudioTrackError`, `SoftTimeLimitExceeded` or an unexpected
  error. -/
  | failNonRetryable
  /-- an `FFmpegError` (probe or transcode) before the `uploading`
  write: retried while `self.request.retries < max_retries`. -/
  | retryableFailure

/-- Status writes of the deliveries starting at retry count `attempt`,
given each delivery's outcome. -/
def jobTraceGo (o : Nat → RunOutcome) (attempt : Nat) : List String :=
  match o attempt with
  | .success => ["processing", "uploading", "completed"]
  | .failAfterUploading => ["processing", "uploading", "failed"]
  | .failNonRetryable => ["processing", "failed"]
  | .retryableFailure =>
    if _h : attempt < convert_video_max_retries then
      "processing" :: jobTraceGo o (attempt + 1)
    else ["processing", "failed"]
termination_by convert_video_max_retries - attempt
decreasing_by simp_wf; omega

/-- The job's full status history: the `queued` written at create
followed by all task-runner writes. -/
def jobStatusTrace (o : Nat → RunOutcome) : List String :=
  "queued" :: jobTraceGo o 0

/-- Position of a status along the forward chain; both terminal states
sit at the top. -/
def statusRank (s : String) : Nat :=
  if s = "queued" then 0
  else if s = "processing" then 1
  else if s = "uploading" then 2
  else 3

/-- An allowed successive pair of status writes: the rank never
decreases, a terminal state is never left, and `completed` is entered
only from `uploading`. -/
def stepAllowed (s t : String) : Prop :=
  statusRank s ≤ statusRank t ∧ s ≠ "completed" ∧ s ≠ "failed" ∧
    (t = "completed" → s = "uploading")

/-! ## Claims -/

/-- C10: when `ALLOW_PRIVATE_IPS` is set, `is_safe_url` returns true
for every input string — the bypass short-circuits before the scheme
check, the plain-http check, the hostname check and the resolution, so
it accepts non-http schemes, hostless URLs and unparseable strings
alike. -/
theorem is_safe_url_bypass_all (st : SecSettings) (env : NetEnv)
    (url : String) (hpriv : st.ALLOW_PRIVATE_IPS = true) :
    is_safe_url st env url = true := by
  simp [is_safe_url, hpriv]

/-- C10 witness: the bypass accepts a string that fails to parse. -/
theorem is_safe_url_bypass_all_witness :
    is_safe_url ⟨true, false⟩ ⟨fun _ => none, fun _ => none⟩ "::not a url::" =
      true :=
  is_safe_url_bypass_all ⟨true, false⟩ ⟨fun _ => none, fun _ => none⟩
    "::not a url::" rfl

/-- C1: `redis_client.create_job` is a plain `HSET` of the whole
mapping (despite its comment claiming `SET NX`), so a second write for
the same job id overwrites the stored record — here `created_at` and
`input_path` change — instead of leaving the first writer's record
unchanged. -/
theorem create_job_second_write_overwrites_record :
    khget (create_job "2024-01-01T00:00:00Z" "/tmp/converter/j/input.mp4"
        KeyState.empty) "created_at" = some "2024-01-01T00:00:00Z"
  ∧ khget (create_job "2024-01-02T09:30:00Z" "/tmp/converter/j/input.bin"
        (create_job "2024-01-01T00:00:00Z" "/tmp/converter/j/input.mp4"
          KeyState.empty)) "created_at" = some "2024-01-02T09:30:00Z"
  ∧ khget (create_job "2024-01-02T09:30:00Z" "/tmp/converter/j/input.bin"
        (create_job "2024-01-01T00:00:00Z" "/tmp/converter/j/input.mp4"
          KeyState.empty)) "input_path" = some "/tmp/converter/j/input.bin" := by
  refine ⟨?_, ?_, ?_⟩ <;> decide

/-- C2 counterexample: an unexpected (non-FFmpeg) error on the very
first attempt (`self.request.retries = 0 < 3`) is not retried: the
generic `except Exception` clause finishes the job as failed
immediately. -/
theorem convert_video_unexpected_error_not_retried :
    convert_video_on_exc 0 (.unexpected "boom") =
      .finishFailed "Unexpected error: boom"
  ∧ convert_video_on_exc 0 (.unexpected "boom") ≠ .retryTask 30 := by
  refine ⟨?_, ?_⟩ <;> decide

/-- C2 (amended): the task is retried, with the 30-second default
delay, exactly for an `FFmpegError` (probe or transcode failure) while
fewer than 3 retries have been performed; `NoAudioTrackError`,
`SoftTimeLimitExceeded` and unexpected errors always finish the job as
failed immediately, and after 3 retries every error is terminal. -/
theorem convert_video_retry_policy (retries : Nat) (e : TaskExc) :
    (∀ d, convert_video_on_exc retries e = .retryTask d ↔
       (d = convert_video_default_retry_delay ∧ (∃ m, e = .ffmpegError m) ∧
         retries < convert_video_max_retries))
  ∧ ((∀ m, e ≠ .ffmpegError m) →
       ∃ msg, convert_video_on_exc retries e = .finishFailed msg)
  ∧ (convert_video_max_retries ≤ retries →
       ∃ msg, convert_video_on_exc retries e = .finishFailed msg) := by
  refine ⟨?_, ?_, ?_⟩
  · intro d
    cases e <;>
      simp only [convert_video_on_exc] <;>
      first
      | (constructor
         · intro h; cases h
         · rintro ⟨-, ⟨m, hm⟩, -⟩; cases hm)
      | (by_cases hr : retries < convert_video_max_retries
         · rw [if_pos hr]
           constructor
           · intro h
             cases h
             exact ⟨rfl, ⟨_, rfl⟩, hr⟩
           · rintro ⟨hd, -, -⟩
             rw [hd]
         · rw [if_neg hr]
           constructor
           · intro h; cases h
           · rintro ⟨-, -, hlt⟩; exact absurd hlt hr)
  · intro hne
    cases e with
    | noAudioTrack msg => exact ⟨msg, rfl⟩
    | ffmpegError m => exact absurd rfl (hne m)
    | softTimeLimitExceeded => exact ⟨_, rfl⟩
    | unexpected msg => exact ⟨_, rfl⟩
  · intro hge
    cases e with
    | noAudioTrack msg => exact ⟨msg, rfl⟩
    | ffmpegError m =>
      refine ⟨"FFmpeg failed after retries: " ++ m, ?_⟩
      simp [convert_video_on_exc, Nat.not_lt.mpr hge]
    | softTimeLimitExceeded => exact ⟨_, rfl⟩
    | unexpected msg => exact ⟨_, rfl⟩

/-- C2 witness: a transcode failure on the second attempt (1 retry so
far) is retried with the 30-second delay. -/
theorem convert_video_retry_policy_witness :
    convert_video_on_exc 1 (.ffmpegError "exit code 1") = .retryTask 30 :=
  ((convert_video_retry_policy 1 (.ffmpegError "exit code 1")).1 30).mpr
    ⟨rfl, ⟨"exit code 1", rfl⟩, by decide⟩

/-- The removal test of the reaper, spelled out. -/
theorem reaperRemoves_iff (now ttl : ℚ) (jobs : String → Option Hash)
    (d : DirEntry) :
    reaperRemoves now ttl jobs d = true ↔
      (d.isDir = true ∧ now - d.mtime > ttl ∧
        (jobs d.name = none ∨
          ∃ h, jobs d.name = some h ∧
            (h "status" = some "completed" ∨ h "status" = some "failed"))) := by
  unfold reaperRemoves
  cases hj : jobs d.name with
  | none => simp
  | some h =>
    cases hs : h "status" with
    | none => simp [hs]
    | some s => simp [hs, and_assoc]

/-- C8: a temp-root entry is removed by one sweep of
`cleanup_orphaned_files` exactly when it is a directory, its age
`now - mtime` strictly exceeds the TTL, and the job record is absent or
in a terminal state; in particular a directory whose job is
non-terminal is never removed, regardless of age.  The beat schedule
runs the sweep every 1800 seconds = 30 minutes. -/
theorem reaper_removes_iff (now ttl : ℚ) (jobs : String → Option Hash)
    (entries : List DirEntry) (d : DirEntry) :
    (d ∈ cleanup_orphaned_files now ttl jobs entries ↔
      d ∈ entries ∧ d.isDir = true ∧ now - d.mtime > ttl ∧
        (jobs d.name = none ∨
          ∃ h, jobs d.name = some h ∧
            (h "status" = some "completed" ∨ h "status" = some "failed")))
  ∧ cleanup_beat_schedule_seconds = 30 * 60 := by
  constructor
  · rw [cleanup_orphaned_files, List.mem_filter, reaperRemoves_iff]
  · norm_num [cleanup_beat_schedule_seconds]

/-- C8 witness: an hour-old directory of an absent job is reaped. -/
theorem reaper_removes_iff_witness :
    (⟨"j", 0, true⟩ : DirEntry) ∈
      cleanup_orphaned_files 4000 3600 (fun _ => none)
        [⟨"j", 0, true⟩, ⟨"k", 3999, true⟩] :=
  ((reaper_removes_iff 4000 3600 (fun _ => none)
      [⟨"j", 0, true⟩, ⟨"k", 3999, true⟩] ⟨"j", 0, true⟩).1).mpr
    ⟨by decide, rfl, by norm_num, Or.inl rfl⟩

/-- C3: with the private-IP bypass off, every HTTP request issued by
the artifact upload (PUT) or the webhook (POST) targets a URL whose
host resolves to a public address — never loopback, link-local or
private; and a parse or resolution error on the checked URL makes it
unsafe, so the upload raises a `ValueError` having issued no request
and the webhook returns without sending anything. -/
theorem outbound_requests_ssrf_safe (st : SecSettings) (env : NetEnv)
    (filename output_url callback_url : String) (ubase wbase : ℚ)
    (ujit wjit : Nat → ℚ) (umax wmax : Nat)
    (uout wout : Nat → Except String Unit)
    (hpriv : st.ALLOW_PRIVATE_IPS = false) :
    (∀ r ∈ (upload_output_wav st env filename output_url ubase ujit umax
          uout).1 ++ fire_webhook st env callback_url wbase wjit wmax wout,
      ∀ p host ip, env.parse r.url = some p → p.hostname = some host →
        env.resolve host = some ip →
        ip.is_private = false ∧ ip.is_loopback = false ∧
          ip.is_link_local = false)
  ∧ (env.parse (upload_url output_url filename) = none →
      (upload_output_wav st env filename output_url ubase ujit umax uout).1 =
        [] ∧
      ∃ msg, (upload_output_wav st env filename output_url ubase ujit umax
        uout).2 = .error msg)
  ∧ (∀ p host, env.parse (upload_url output_url filename) = some p →
      p.hostname = some host → env.resolve host = none →
      (upload_output_wav st env filename output_url ubase ujit umax uout).1 =
        [] ∧
      ∃ msg, (upload_output_wav st env filename output_url ubase ujit umax
        uout).2 = .error msg)
  ∧ (env.parse callback_url = none →
      fire_webhook st env callback_url wbase wjit wmax wout = [])
  ∧ (∀ p host, env.parse callback_url = some p → p.hostname = some host →
      env.resolve host = none →
      fire_webhook st env callback_url wbase wjit wmax wout = []) := by
  refine ⟨?_, ?_, ?_, ?_, ?_⟩
  · intro r hr p host ip hp hh hres
    rw [List.mem_append] at hr
    rcases hr with hr | hr
    · by_cases hsafe : is_safe_url st env (upload_url output_url filename)
      · simp only [upload_output_wav, if_pos hsafe] at hr
        have hru : r = ⟨"PUT", upload_url output_url filename⟩ :=
          List.eq_of_mem_replicate hr
        rw [hru] at hp
        exact is_safe_url_resolved_public st env _ p host ip hpriv hsafe hp
          hh hres
      · simp only [upload_output_wav, if_neg hsafe] at hr
        cases hr
    · by_cases hsafe : is_safe_url st env callback_url
      · simp only [fire_webhook, if_pos hsafe] at hr
        have hru : r = ⟨"POST", callback_url⟩ := List.eq_of_mem_replicate hr
        rw [hru] at hp
        exact is_safe_url_resolved_public st env _ p host ip hpriv hsafe hp
          hh hres
      · simp only [fire_webhook, if_neg hsafe] at hr
        cases hr
  · intro hparse
    have hsafe := is_safe_url_of_parse_none st env _ hpriv hparse
    simp only [upload_output_wav, hsafe, Bool.false_eq_true, if_false,
      ite_false]
    exact ⟨trivial, _, rfl⟩
  · intro p host hp hh hres
    have hsafe := is_safe_url_of_resolve_none st env _ p host hpriv hp hh hres
    simp only [upload_output_wav, hsafe, Bool.false_eq_true, if_false,
      ite_false]
    exact ⟨trivial, _, rfl⟩
  · intro hparse
    have hsafe := is_safe_url_of_parse_none st env _ hpriv hparse
    simp only [fire_webhook, hsafe, Bool.false_eq_true, if_false, ite_false]
  · intro p host hp hh hres
    have hsafe := is_safe_url_of_resolve_none st env _ p host hpriv hp hh hres
    simp only [fire_webhook, hsafe, Bool.false_eq_true, if_false, ite_false]

/-- C3 witness: with the bypass off and an unparseable upload URL, the
upload issues no request and errors, and the webhook to an unparseable
callback sends nothing. -/
theorem outbound_requests_ssrf_safe_witness :
    (upload_output_wav ⟨false, false⟩ ⟨fun _ => none, fun _ => none⟩
        "out.mp3" "https://dest.example" 2 (fun _ => (1 : ℚ) / 2) 3
        (fun _ => .ok ())).1 = []
  ∧ (∃ msg, (upload_output_wav ⟨false, false⟩ ⟨fun _ => none, fun _ => none⟩
        "out.mp3" "https://dest.example" 2 (fun _ => (1 : ℚ) / 2) 3
        (fun _ => .ok ())).2 = .error msg)
  ∧ fire_webhook ⟨false, false⟩ ⟨fun _ => none, fun _ => none⟩
      "https://cb.example/hook" 2 (fun _ => (1 : ℚ) / 2) 5
      (fun _ => .ok ()) = [] := by
  have h := outbound_requests_ssrf_safe ⟨false, false⟩
    ⟨fun _ => none, fun _ => none⟩ "out.mp3" "https://dest.example"
    "https://cb.example/hook" 2 2 (fun _ => (1 : ℚ) / 2)
    (fun _ => (1 : ℚ) / 2) 3 5 (fun _ => .ok ()) (fun _ => .ok ()) rfl
  exact ⟨(h.2.1 rfl).1, (h.2.1 rfl).2, h.2.2.2.1 rfl⟩

/-- C4: on a terminal finish, `finish_job` writes the terminal status
to the store as its first effect, before any webhook delivery attempt;
the stored state is the same for every webhook outcome (including
exhaustion of all webhook retries), and every event after the store
write is a webhook POST — `fire_webhook` swallows all errors, so it
contributes no failure to the trace. -/
theorem finish_job_terminal_before_webhook (st : SecSettings) (env : NetEnv)
    (now status : String) (error : Option String)
    (callback_url : Option String) (base : ℚ) (jitter : Nat → ℚ)
    (maxRetries : Nat) (o o' : Nat → Except String Unit) (ks : KeyState)
    (_hterm : status = "completed" ∨ status = "failed") :
    khget (finish_job st env now status error callback_url base jitter
        maxRetries o ks).1 "status" = some status
  ∧ (finish_job st env now status error callback_url base jitter maxRetries
        o ks).1 =
      (finish_job st env now status error callback_url base jitter maxRetries
        o' ks).1
  ∧ (finish_job st env now status error callback_url base jitter maxRetries
        o ks).2.head? = some (.storeWrite status)
  ∧ ∀ e ∈ (finish_job st env now status error callback_url base jitter
        maxRetries o ks).2.tail, ∃ u, e = TraceEvent.webhookPost u := by
  refine ⟨update_job_status_sets_status now status error ks, rfl, rfl, ?_⟩
  cases callback_url with
  | none =>
    intro e he
    simp [finish_job] at he
  | some url =>
    intro e he
    simp only [finish_job, List.tail_cons] at he
    rcases List.mem_map.mp he with ⟨r, -, hrE⟩
    exact ⟨r.url, hrE.symm⟩

/-- C4 witness: a completed finish with a configured callback and a
webhook that fails every attempt still stores `completed`, and the
store write is the first event. -/
theorem finish_job_terminal_before_webhook_witness :
    khget (finish_job ⟨false, false⟩ ⟨fun _ => none, fun _ => none⟩
        "2024-01-01T00:00:00Z" "completed" none
        (some "https://cb.example/hook") 2 (fun _ => (1 : ℚ) / 2) 5
        (fun _ => .error "connection refused") KeyState.empty).1 "status" =
      some "completed"
  ∧ (finish_job ⟨false, false⟩ ⟨fun _ => none, fun _ => none⟩
        "2024-01-01T00:00:00Z" "completed" none
        (some "https://cb.example/hook") 2 (fun _ => (1 : ℚ) / 2) 5
        (fun _ => .error "connection refused") KeyState.empty).2.head? =
      some (.storeWrite "completed") := by
  have h := finish_job_terminal_before_webhook ⟨false, false⟩
    ⟨fun _ => none, fun _ => none⟩ "2024-01-01T00:00:00Z" "completed" none
    (some "https://cb.example/hook") 2 (fun _ => (1 : ℚ) / 2) 5
    (fun _ => .error "connection refused") (fun _ => .ok ()) KeyState.empty
    (Or.inl rfl)
  exact ⟨h.1, h.2.2.1⟩

/-- C5: the shared retry primitive calls the wrapped function at most
`max_retries` times; each recorded back-off delay before re-attempt `k`
equals `base * 2 ^ k + jitter k` and so lies in
`[base * 2 ^ k, base * 2 ^ k + 1)` because the jitter models
`random.uniform(0, 1) = random()`, a value in `[0, 1)`; when every
attempt fails the exception of the last attempt is re-raised; and the
configured attempt caps are 3 for the upload and 5 for the webhook. -/
theorem retry_with_backoff_policy {α : Type}
    (outcomes : Nat → Except String α) (base : ℚ) (jitter : Nat → ℚ)
    (maxRetries : Nat) (hj0 : ∀ k, 0 ≤ jitter k)
    (hj1 : ∀ k, jitter k < 1) :
    (retry_with_backoff outcomes base jitter maxRetries).calls ≤ maxRetries
  ∧ (∀ i d,
      (retry_with_backoff outcomes base jitter maxRetries).delays.get? i =
        some d →
      base * 2 ^ i ≤ d ∧ d < base * 2 ^ i + 1)
  ∧ (∀ errs : Nat → String,
      (∀ k, k < maxRetries → outcomes k = .error (errs k)) →
      0 < maxRetries →
      (retry_with_backoff outcomes base jitter maxRetries).result =
        some (.error (errs (maxRetries - 1))))
  ∧ UPLOAD_MAX_RETRIES = 3 ∧ WEBHOOK_MAX_RETRIES = 5 := by
  refine ⟨retryGo_calls_le outcomes base jitter maxRetries maxRetries 0,
    ?_, ?_, rfl, rfl⟩
  · intro i d hd
    have hval := retryGo_delays outcomes base jitter maxRetries maxRetries
      0 i d hd
    rw [hval]
    simp only [Nat.zero_add]
    exact ⟨le_add_of_nonneg_right (hj0 i), add_lt_add_left (hj1 i) _⟩
  · intro errs hfail hpos
    exact retryGo_exhaust outcomes base jitter maxRetries errs hfail
      maxRetries 0 (by omega) hpos

/-- C5 witness: three attempts that all fail make exactly at most 3
calls and re-raise the last exception. -/
theorem retry_with_backoff_policy_witness :
    (retry_with_backoff (fun _ => (Except.error "boom" : Except String Unit))
        2 (fun _ => (1 : ℚ) / 2) 3).calls ≤ 3
  ∧ (retry_with_backoff (fun _ => (Except.error "boom" : Except String Unit))
        2 (fun _ => (1 : ℚ) / 2) 3).result = some (.error "boom") := by
  have h := retry_with_backoff_policy
    (fun _ => (Except.error "boom" : Except String Unit)) 2
    (fun _ => (1 : ℚ) / 2) 3 (fun _ => by norm_num) (fun _ => by norm_num)
  exact ⟨h.1, h.2.2.1 (fun _ => "boom") (fun _ _ => rfl) (by norm_num)⟩

/-- C6 counterexample: a terminal `update_job_status` on a job id whose
record does not exist creates the record (the `HSET` runs after the
`EXPIRE`, which is a no-op on a missing key) but leaves it without any
TTL, contradicting the claim that every terminal update applies the
7-day TTL to the record. -/
theorem update_job_status_missing_record_no_ttl :
    (update_job_status "2024-01-01T00:00:00Z" "completed" none
        KeyState.empty).ttl = none
  ∧ khget (update_job_status "2024-01-01T00:00:00Z" "completed" none
        KeyState.empty) "status" = some "completed" := by
  refine ⟨?_, ?_⟩ <;> decide

/-- C6 (amended): `update_job_status` always sets `status`; it sets
`started_at` exactly when the new status is `processing` and the stored
`started_at` is unset (missing or empty); on a terminal status it sets
`completed_at`, persists the error string when one is provided and
non-empty (Python truthiness of the optional argument), and applies the
604800-second (7-day) TTL provided the job record already existed
before the call. -/
theorem update_job_status_spec (now status : String)
    (error : Option String) (ks : KeyState) :
    khget (update_job_status now status error ks) "status" = some status
  ∧ (status = "processing" → pyFalsy (khget ks "started_at") = true →
      khget (update_job_status now status error ks) "started_at" = some now)
  ∧ (pyFalsy (khget ks "started_at") = false →
      khget (update_job_status now status error ks) "started_at" =
        khget ks "started_at")
  ∧ (status ≠ "processing" →
      khget (update_job_status now status error ks) "started_at" =
        khget ks "started_at")
  ∧ ((status = "completed" ∨ status = "failed") →
      khget (update_job_status now status error ks) "completed_at" = some now
      ∧ (∀ e, error = some e → e ≠ "" →
          khget (update_job_status now status error ks) "error" = some e)
      ∧ (ks.hash.isSome = true →
          (update_job_status now status error ks).ttl = some 604800)) := by
  have hstarted : ¬(status = "processing" ∧
      pyFalsy (khget ks "started_at")) →
      khget (update_job_status now status error ks) "started_at" =
        khget ks "started_at" := by
    intro hc1
    by_cases hc2 : status = "completed" ∨ status = "failed"
    · simp only [update_job_status, if_neg hc1, if_pos hc2]
      rcases error with _ | e
      · simp [khget_khsetM, lookupLastKey, kexpire_khget]
      · by_cases he : e = "" <;>
          simp [he, khget_khsetM, lookupLastKey, kexpire_khget]
    · simp only [update_job_status, if_neg hc1, if_neg hc2]
      simp [khget_khsetM, lookupLastKey]
  refine ⟨update_job_status_sets_status now status error ks, ?_, ?_, ?_, ?_⟩
  · intro hs hf
    have hc1 : status = "processing" ∧ pyFalsy (khget ks "started_at") :=
      ⟨hs, hf⟩
    have hc2 : ¬(status = "completed" ∨ status = "failed") := by
      rintro (h | h) <;> rw [hs] at h <;> simp at h
    simp only [update_job_status, if_pos hc1, if_neg hc2]
    simp [khget_khsetM, lookupLastKey]
  · intro hf
    refine hstarted ?_
    rintro ⟨-, hp⟩
    rw [hf] at hp
    cases hp
  · intro hs
    refine hstarted ?_
    rintro ⟨hp, -⟩
    exact hs hp
  · intro hc2
    have hc1 : ¬(status = "processing" ∧ pyFalsy (khget ks "started_at")) := by
      rintro ⟨hp, -⟩
      rcases hc2 with h | h <;> rw [hp] at h <;> simp at h
    refine ⟨?_, ?_, ?_⟩
    · simp only [update_job_status, if_pos hc2, if_neg hc1]
      rcases error with _ | e
      · simp [khget_khsetM, lookupLastKey]
      · by_cases he : e = "" <;> simp [he, khget_khsetM, lookupLastKey]
    · intro e herr hne
      rw [herr]
      simp only [update_job_status, if_pos hc2, if_neg hc1]
      simp [hne, khget_khsetM, lookupLastKey]
    · intro hsome
      simp only [update_job_status, if_pos hc2, if_neg hc1]
      rw [khsetM_ttl, kexpire_ttl_of_some ks 604800 hsome]

/-- C6 witness: a terminal update with a non-empty error on an existing
record sets the terminal fields and the 7-day TTL. -/
theorem update_job_status_spec_witness :
    khget (update_job_status "2024-01-01T01:00:00Z" "failed"
        (some "FFmpeg failed after retries: exit code 1")
        (create_job "2024-01-01T00:00:00Z" "/tmp/converter/j/input.mp4"
          KeyState.empty)) "completed_at" = some "2024-01-01T01:00:00Z"
  ∧ khget (update_job_status "2024-01-01T01:00:00Z" "failed"
        (some "FFmpeg failed after retries: exit code 1")
        (create_job "2024-01-01T00:00:00Z" "/tmp/converter/j/input.mp4"
          KeyState.empty)) "error" =
      some "FFmpeg failed after retries: exit code 1"
  ∧ (update_job_status "2024-01-01T01:00:00Z" "failed"
        (some "FFmpeg failed after retries: exit code 1")
        (create_job "2024-01-01T00:00:00Z" "/tmp/converter/j/input.mp4"
          KeyState.empty)).ttl = some 604800 := by
  have h := (update_job_status_spec "2024-01-01T01:00:00Z" "failed"
    (some "FFmpeg failed after retries: exit code 1")
    (create_job "2024-01-01T00:00:00Z" "/tmp/converter/j/input.mp4"
      KeyState.empty)).2.2.2.2 (Or.inr rfl)
  exact ⟨h.1, h.2.1 _ rfl (by decide), h.2.2 (by decide)⟩

/-! ### Ingress streaming lemmas -/

theorem readChunks_le (n : Nat) : ∀ c ∈ readChunks n, c ≤ 1048576 := by
  induction n using Nat.strong_induction_on with
  | _ n ih =>
    cases n with
    | zero => intro c hc; simp [readChunks] at hc
    | succ m =>
      intro c hc
      rw [readChunks] at hc
      rcases List.mem_cons.mp hc with hc | hc
      · rw [hc]; exact min_le_left _ _
      · have hpos : 0 < min 1048576 (m + 1) :=
          lt_min_iff.mpr ⟨by norm_num, Nat.succ_pos m⟩
        exact ih ((m + 1) - min 1048576 (m + 1)) (by omega) c hc

theorem readChunks_sum (n : Nat) : (readChunks n).sum = n := by
  induction n using Nat.strong_induction_on with
  | _ n ih =>
    cases n with
    | zero => simp [readChunks]
    | succ m =>
      rw [readChunks, List.sum_cons]
      have hpos : 0 < min 1048576 (m + 1) :=
        lt_min_iff.mpr ⟨by norm_num, Nat.succ_pos m⟩
      have hle : min 1048576 (m + 1) ≤ m + 1 := min_le_right _ _
      rw [ih ((m + 1) - min 1048576 (m + 1)) (by omega)]
      omega

theorem streamLoop_abort (maxBytes : Nat) :
    ∀ (cs : List Nat) (total : Nat), total ≤ maxBytes →
      total + cs.sum > maxBytes →
      ∃ pre, streamLoop maxBytes cs total =
          (pre ++ [.purgeDir, .respond 413], false) ∧
        ∀ e ∈ pre, ∃ k, e = IngEvent.writeChunk k := by
  intro cs
  induction cs with
  | nil => intro total h1 h2; simp at h2; omega
  | cons c cs ih =>
    intro total h1 h2
    rw [streamLoop]
    by_cases hc : total + c > maxBytes
    · rw [if_pos hc]
      exact ⟨[], rfl, by simp⟩
    · rw [if_neg hc]
      have h1' : total + c ≤ maxBytes := by omega
      have h2' : total + c + cs.sum > maxBytes := by
        rw [List.sum_cons] at h2; omega
      obtain ⟨pre, heq, hpre⟩ := ih (total + c) h1' h2'
      refine ⟨.writeChunk c :: pre, ?_, ?_⟩
      · simp [heq]
      · intro e he
        rcases List.mem_cons.mp he with he | he
        · exact ⟨c, he⟩
        · exact hpre e he

/-- C7: a fresh submission whose streamed size exceeds the configured
ceiling is answered 413; the job directory is purged before the
response is produced (the purge event precedes the respond event, which
is last); no job record is created — the store is returned unchanged
and no `create_job` event occurs; and every read chunk is at most
1 MiB. -/
theorem ingress_oversize_rejected (maxUploadMB fileSize : Nat)
    (now input_path : String) (ks : KeyState) (hnew : ks.hash = none)
    (hover : fileSize > maxUploadMB * 1024 * 1024) :
    (create_job_endpoint_run true maxUploadMB fileSize now input_path
        ks).code = 413
  ∧ (create_job_endpoint_run true maxUploadMB fileSize now input_path
        ks).store = ks
  ∧ (create_job_endpoint_run true maxUploadMB fileSize now input_path
        ks).dirExists = false
  ∧ (∃ pre,
      (create_job_endpoint_run true maxUploadMB fileSize now input_path
          ks).events = pre ++ [.purgeDir, .respond 413]
      ∧ IngEvent.storeCreateJob ∉
          (create_job_endpoint_run true maxUploadMB fileSize now input_path
            ks).events)
  ∧ ∀ c ∈ readChunks fileSize, c ≤ 1048576 := by
  have hsum : (0 : Nat) + (readChunks fileSize).sum >
      maxUploadMB * 1024 * 1024 := by
    rw [readChunks_sum]; omega
  obtain ⟨pre, heq, hpre⟩ := streamLoop_abort (maxUploadMB * 1024 * 1024)
    (readChunks fileSize) 0 (Nat.zero_le _) hsum
  have hres : create_job_endpoint_run true maxUploadMB fileSize now
      input_path ks =
      ⟨.createDir :: (pre ++ [.purgeDir, .respond 413]), ks, false, 413⟩ := by
    simp only [create_job_endpoint_run, hnew, heq]
    simp
  rw [hres]
  refine ⟨rfl, rfl, rfl, ⟨.createDir :: pre, rfl, ?_⟩,
    readChunks_le fileSize⟩
  intro hmem
  rcases List.mem_cons.mp hmem with h | h
  · cases h
  · rcases List.mem_append.mp h with h | h
    · obtain ⟨k, hk⟩ := hpre _ h
      cases hk
    · rcases List.mem_cons.mp h with h | h
      · cases h
      · rcases List.mem_cons.mp h with h | h
        · cases h
        · simp at h

/-- C7 witness: a 1-byte upload against a 0 MiB ceiling on a fresh job
is rejected with 413, the directory is gone and the store untouched. -/
theorem ingress_oversize_rejected_witness :
    (create_job_endpoint_run true 0 1 "2024-01-01T00:00:00Z"
        "/tmp/converter/j/input.mp4" KeyState.empty).code = 413
  ∧ (create_job_endpoint_run true 0 1 "2024-01-01T00:00:00Z"
        "/tmp/converter/j/input.mp4" KeyState.empty).store = KeyState.empty
  ∧ (create_job_endpoint_run true 0 1 "2024-01-01T00:00:00Z"
        "/tmp/converter/j/input.mp4" KeyState.empty).dirExists = false := by
  have h := ingress_oversize_rejected 0 1 "2024-01-01T00:00:00Z"
    "/tmp/converter/j/input.mp4" KeyState.empty rfl (by norm_num)
  exact ⟨h.1, h.2.1, h.2.2.1⟩

/-! ### Status-trace machinery -/

instance : DecidableRel stepAllowed := fun s t =>
  inferInstanceAs (Decidable (statusRank s ≤ statusRank t ∧ s ≠ "completed" ∧
    s ≠ "failed" ∧ (t = "completed" → s = "uploading")))

theorem chain_success :
    List.Chain' stepAllowed ["processing", "uploading", "completed"] :=
  List.chain'_cons.mpr ⟨by decide,
    List.chain'_cons.mpr ⟨by decide, List.chain'_singleton _⟩⟩

theorem chain_fail_late :
    List.Chain' stepAllowed ["processing", "uploading", "failed"] :=
  List.chain'_cons.mpr ⟨by decide,
    List.chain'_cons.mpr ⟨by decide, List.chain'_singleton _⟩⟩

theorem chain_fail_early :
    List.Chain' stepAllowed ["processing", "failed"] :=
  List.chain'_cons.mpr ⟨by decide, List.chain'_singleton _⟩

theorem jobTraceGo_head_chain (o : Nat → RunOutcome) :
    ∀ n attempt, convert_video_max_retries - attempt ≤ n →
      (jobTraceGo o attempt).head? = some "processing" ∧
        List.Chain' stepAllowed (jobTraceGo o attempt) := by
  have hmax : convert_video_max_retries = 3 := rfl
  intro n
  induction n with
  | zero =>
    intro attempt h
    have hge : ¬ attempt < convert_video_max_retries := by omega
    rw [jobTraceGo]
    cases o attempt
    · exact ⟨rfl, chain_success⟩
    · exact ⟨rfl, chain_fail_late⟩
    · exact ⟨rfl, chain_fail_early⟩
    · rw [dif_neg hge]
      exact ⟨rfl, chain_fail_early⟩
  | succ n ih =>
    intro attempt h
    rw [jobTraceGo]
    cases o attempt
    · exact ⟨rfl, chain_success⟩
    · exact ⟨rfl, chain_fail_late⟩
    · exact ⟨rfl, chain_fail_early⟩
    · by_cases hlt : attempt < convert_video_max_retries
      · rw [dif_pos hlt]
        have ihh := ih (attempt + 1) (by omega)
        refine ⟨rfl, List.chain'_cons'.mpr ⟨?_, ihh.2⟩⟩
        intro y hy
        rw [ihh.1, Option.mem_def, Option.some.injEq] at hy
        rw [← hy]
        decide
      · rw [dif_neg hlt]
        exact ⟨rfl, chain_fail_early⟩

/-- C9: for every sequence of delivery outcomes of the task runner, the
job's status history — `queued` at create, then every status written by
`convert_video` across its deliveries and retries — advances
monotonically along queued → processing → uploading → completed, with
`failed` reachable from any non-terminal state, and never steps
backward out of a later or terminal state. -/
theorem status_trace_monotone (o : Nat → RunOutcome) :
    List.Chain' stepAllowed (jobStatusTrace o) := by
  have key := jobTraceGo_head_chain o convert_video_max_retries 0
    (Nat.sub_le _ _)
  rw [jobStatusTrace]
  refine List.chain'_cons'.mpr ⟨?_, key.2⟩
  intro y hy
  rw [key.1, Option.mem_def, Option.some.injEq] at hy
  rw [← hy]
  decide

end STTPrep
